import Mathlib

/-!
Verification of the period cache and report-aggregation engine of
`gcal_report/gcal_app.py` (class `GoogleCalendarReport`).

The Python code is shallowly embedded: SQLite tables become lists of row
structures, the transaction/rollback discipline of `store_period_in_database`
becomes a pure function that either returns the committed state or the
unchanged pre-call state, Python exceptions (`KeyError`, simulated
persistence faults) become `Except`, and `float` durations become `Rat`.
Date strings handled by `datetime.fromisoformat` are embedded as structured
calendar dates; timestamps as rational seconds on an absolute time line.
-/

namespace GCal

/-- A calendar date, as held by a `datetime.date` (the `YYYY-MM-DD` part of the
strings the program passes to `datetime.fromisoformat`). -/
structure Date where
  year : Nat
  month : Nat
  day : Nat
deriving DecidableEq, Repr

/-- The expected input domain of the program's dates: a real `datetime` date
(month `1..12`, day `1..31`) with a four-digit year, so that `strftime("%Y%m%d")`
renders exactly eight characters. -/
def validDate (d : Date) : Prop :=
  1000 ≤ d.year ∧ d.year ≤ 9999 ∧ 1 ≤ d.month ∧ d.month ≤ 12 ∧ 1 ≤ d.day ∧ d.day ≤ 31

instance (d : Date) : Decidable (validDate d) := by
  unfold validDate; infer_instance

/-- Day number of a Gregorian date (days since 1970-01-01).  This is the value
underlying `datetime` date subtraction: `(end - start).days` for midnight
datetimes equals `end.toDays - start.toDays`. -/
def Date.toDays (dt : Date) : Int :=
  let y : Int := if dt.month ≤ 2 then (dt.year : Int) - 1 else (dt.year : Int)
  let era : Int := (if 0 ≤ y then y else y - 399) / 400
  let yoe : Int := y - era * 400
  let mp : Int := ((dt.month : Int) + 9) % 12
  let doy : Int := (153 * mp + 2) / 5 + (dt.day : Int) - 1
  let doe : Int := yoe * 365 + yoe / 4 - yoe / 100 + doy
  era * 146097 + doe - 719468

/-- The configuration values consumed by the core (`self.config.get(...)`). -/
structure Config where
  all_day_event_hours : Rat
  working_days_per_week : Rat
deriving DecidableEq, Repr

/-! ### Period keys (`get_period_key`) -/

/-- Decimal digit character, as produced by `strftime`. -/
def decChar (n : Nat) : Char := Char.ofNat (48 + n % 10)

/-- Zero-padded `w`-character decimal rendering of `n` (for `n < 10 ^ w`), the
field formatting of `strftime` directives such as `%m`/`%d`/`%Y`. -/
def padChars (w n : Nat) : List Char :=
  (List.range w).reverse.map (fun i => decChar (n / 10 ^ i % 10))

/-- Characters of `d.strftime("%Y%m%d")`. -/
def ymdChars (d : Date) : List Char :=
  padChars 4 d.year ++ padChars 2 d.month ++ padChars 2 d.day

/-- `d.strftime("%Y%m%d")`. -/
def strftimeYmd (d : Date) : String := String.mk (ymdChars d)

/-- `get_period_key(period_type, start_date, end_date)`:
the f-string `period_type ++ "_" ++ start.strftime("%Y%m%d") ++ "_" ++ end.strftime("%Y%m%d")`.
The source receives datetimes; `%Y%m%d` uses only their calendar date, so the
boundaries are embedded at day granularity. -/
def get_period_key (period_type : String) (start_date end_date : Date) : String :=
  period_type ++ "_" ++ strftimeYmd start_date ++ "_" ++ strftimeYmd end_date

/-! ### Events as fetched / loaded (Python dicts) -/

/-- A value held in a `start_time`/`end_time` TEXT column: either a date string
(`YYYY-MM-DD`) or a timestamp string, embedded structurally.  A timestamp is
its absolute position in seconds (rational, to admit fractional seconds). -/
inductive TimeVal where
  | date (d : Date)
  | dateTime (seconds : Rat)
deriving DecidableEq, Repr

/-- The dict stored under the `start`/`end` keys of a Google Calendar event:
it may carry a `date` entry (all-day) and/or a `dateTime` entry (timed). -/
structure TimeStamp where
  date : Option Date
  dateTime : Option Rat
deriving DecidableEq, Repr

/-- An event dict as fetched from the API or rebuilt by
`get_events_from_database`.  Absent dict keys are `none`.  The `duration` and
`category` keys are only present on events loaded back from the database. -/
structure RawEvent where
  id : Option String
  summary : Option String
  start : Option TimeStamp
  end_ : Option TimeStamp
  colorId : Option String
  duration : Option Rat
  category : Option String
deriving DecidableEq, Repr

/-- `calculate_event_duration(event)`: all-day events count
`(end - start).days * all_day_event_hours`; timed events count elapsed seconds
divided by 3600; an event missing `start`/`end` or populating neither
representation yields `0.0`. -/
def calculate_event_duration (cfg : Config) (event : RawEvent) : Rat :=
  match event.start, event.end_ with
  | some s, some e =>
    match s.date, e.date with
    | some sd, some ed =>
      ((ed.toDays - sd.toDays : Int) : Rat) * cfg.all_day_event_hours
    | _, _ =>
      match s.dateTime, e.dateTime with
      | some st, some et => (et - st) / 3600
      | _, _ => 0
  | _, _ => 0

/-! ### Categorization -/

/-- The character class `[A-Z]` (ASCII uppercase). -/
def isUpperAZ (c : Char) : Bool := 'A' ≤ c && c ≤ 'Z'

/-- The ASCII characters matched by the Python regex class `\s`.
(Python also matches some Unicode spaces; none occur in this development.) -/
def pyWhitespace (c : Char) : Bool :=
  c == ' ' || c == '\t' || c == '\n' || c == '\r' || c == '\x0b' || c == '\x0c'

/-- `re.match(r'^@([A-Z]{3})[ _](.*)', summary)` as used by `generate_report`:
on a match, category is the three captured letters and subcategory the second
group (`.*` stops at a newline); otherwise `("Other", summary)`. -/
def report_categorize (summary : String) : String × String :=
  match summary.data with
  | '@' :: a :: b :: c :: sep :: rest =>
    if isUpperAZ a && isUpperAZ b && isUpperAZ c && (sep == ' ' || sep == '_') then
      (String.mk [a, b, c], String.mk (rest.takeWhile (fun ch => ch != '\n')))
    else ("Other", summary)
  | _ => ("Other", summary)

/-- The category persisted by `store_period_in_database`, from
`re.match(r'^@([A-Z]{3})\s+(.*)', summary)` (only group 1 is used, and the
match succeeds exactly when the tag is followed by a whitespace character). -/
def store_category (summary : String) : String :=
  match summary.data with
  | '@' :: a :: b :: c :: w :: _ =>
    if isUpperAZ a && isUpperAZ b && isUpperAZ c && pyWhitespace w then
      String.mk [a, b, c]
    else "Other"
  | _ => "Other"

/-- `summary.count('@')`. -/
def atCount (s : String) : Nat := s.data.count '@'

/-- No newline among the characters. -/
def noNewline (cs : List Char) : Bool := cs.all (fun c => c != '\n')

/-- `re.match(r'^@[A-Z]{3}[ _].*$', s)` of the recurrence-summary filter:
`.*` cannot cross a newline and `$` matches at the end of the string or just
before one final trailing newline. -/
def recurrence_pattern (s : String) : Bool :=
  match s.data with
  | '@' :: a :: b :: c :: sep :: rest =>
    isUpperAZ a && isUpperAZ b && isUpperAZ c && (sep == ' ' || sep == '_') &&
      (noNewline rest || (rest.getLast? == some '\n' && noNewline rest.dropLast))
  | _ => false

/-! ### The SQLite store -/

/-- A row of the `events` table
(`id, summary, start_time, end_time, duration, is_all_day, category, period_key, color`).
`id` is the primary key.  A missing `dateTime` is stored as the empty string by
the source; that is embedded as `none`. -/
structure EventRow where
  id : String
  summary : String
  start_time : Option TimeVal
  end_time : Option TimeVal
  duration : Rat
  is_all_day : Bool
  category : String
  period_key : String
  color : String
deriving DecidableEq, Repr

/-- A row of the `periods` table
(`period_key, period_type, start_date, end_date, is_complete`); `period_key` is
the primary key. -/
structure PeriodRow where
  period_key : String
  period_type : String
  start_date : Date
  end_date : Date
  is_complete : Bool
deriving DecidableEq, Repr

/-- The database state: the two tables, rows in insertion order. -/
structure DB where
  events : List EventRow
  periods : List PeriodRow
deriving DecidableEq, Repr

/-- `INSERT OR REPLACE INTO events`: the conflicting row (same primary key
`id`) is deleted and the new row inserted. -/
def upsertEvent (rows : List EventRow) (r : EventRow) : List EventRow :=
  rows.filter (fun x => x.id != r.id) ++ [r]

/-- `INSERT OR REPLACE INTO periods`: keyed by `period_key`. -/
def upsertPeriod (rows : List PeriodRow) (r : PeriodRow) : List PeriodRow :=
  rows.filter (fun x => x.period_key != r.period_key) ++ [r]

/-- `is_period_in_database(period_key)`: the `periods` row exists and its
`is_complete` column is 1. -/
def is_period_in_database (db : DB) (period_key : String) : Bool :=
  match db.periods.find? (fun r => r.period_key == period_key) with
  | some r => r.is_complete
  | none => false

/-- A Python exception raised inside the store transaction. -/
inductive PyError where
  | keyError (key : String)
deriving DecidableEq, Repr

/-- Why a `store_period_in_database` transaction aborts: an exception from the
event-processing loop, or a simulated persistence fault (injected to exercise
the rollback path, per the spec's atomicity test). -/
inductive StoreFailure where
  | pyErr (e : PyError)
  | injected
deriving DecidableEq, Repr

/-- The body of the per-event loop of `store_period_in_database`: skip the
event when `id` or `summary` is absent, raise `KeyError` where the source
subscripts a missing dict key, and otherwise produce the `events` row to be
upserted. -/
def rowOfEvent (cfg : Config) (pkey : String) (event : RawEvent) :
    Except PyError (Option EventRow) :=
  match event.id, event.summary with
  | some event_id, some summary =>
    let category := store_category summary
    match event.start with
    | none => .error (.keyError "start")
    | some startTs =>
      match startTs.date with
      | some sd =>
        match event.end_ with
        | none => .error (.keyError "end")
        | some endTs =>
          match endTs.date with
          | some ed =>
            .ok (some
              { id := event_id, summary := summary
                start_time := some (.date sd), end_time := some (.date ed)
                duration := calculate_event_duration cfg event
                is_all_day := true, category := category
                period_key := pkey, color := event.colorId.getD "" })
          | none =>
            .ok (some
              { id := event_id, summary := summary
                start_time := startTs.dateTime.map .dateTime
                end_time := endTs.dateTime.map .dateTime
                duration := calculate_event_duration cfg event
                is_all_day := false, category := category
                period_key := pkey, color := event.colorId.getD "" })
      | none =>
        .ok (some
          { id := event_id, summary := summary
            start_time := startTs.dateTime.map .dateTime
            end_time := (event.end_.bind (fun t => t.dateTime)).map .dateTime
            duration := calculate_event_duration cfg event
            is_all_day := false, category := category
            period_key := pkey, color := event.colorId.getD "" })
  | _, _ => .ok none

/-- The event loop of `store_period_in_database` over the uncommitted `events`
table.  `i` counts loop iterations; a simulated fault `fault = some k` raises
just before the `k`-th event is written, modelling a persistence failure after
some but not all events. -/
def storeEventsLoop (cfg : Config) (pkey : String) (fault : Option Nat) :
    List RawEvent → Nat → List EventRow → Except StoreFailure (List EventRow)
  | [], _, rows => .ok rows
  | ev :: rest, i, rows =>
    if fault = some i then .error .injected
    else
      match rowOfEvent cfg pkey ev with
      | .error e => .error (.pyErr e)
      | .ok none => storeEventsLoop cfg pkey fault rest (i + 1) rows
      | .ok (some r) => storeEventsLoop cfg pkey fault rest (i + 1) (upsertEvent rows r)

/-- The sequence of `events` rows a store call writes (independently of the
table contents); `.error` when the loop raises. -/
def storeWriteList (cfg : Config) (pkey : String) :
    List RawEvent → Except StoreFailure (List EventRow)
  | [] => .ok []
  | ev :: rest =>
    match rowOfEvent cfg pkey ev with
    | .error e => .error (.pyErr e)
    | .ok none => storeWriteList cfg pkey rest
    | .ok (some r) => (storeWriteList cfg pkey rest).map (fun ws => r :: ws)

/-- The successful value of a write-list computation, if any (used to state
concrete write lists in a decidable form). -/
def exceptOk? : Except StoreFailure (List EventRow) → Option (List EventRow)
  | .ok ws => some ws
  | .error _ => none

/-- `store_period_in_database(period_type, start_date, end_date, events)`.
All writes happen inside one `BEGIN TRANSACTION` ... `commit`; the period row
is upserted with `is_complete = 1` and every valid event row is upserted.  On
any exception the transaction is rolled back and `False` is returned, so the
observable state is exactly the pre-call `db`.  `fault` injects a simulated
persistence failure inside the event loop. -/
def store_period_in_database (cfg : Config) (db : DB) (period_type : String)
    (start_date end_date : Date) (events : List RawEvent) (fault : Option Nat) :
    Bool × DB :=
  let period_key := get_period_key period_type start_date end_date
  match storeEventsLoop cfg period_key fault events 0 db.events with
  | .error _ => (false, db)
  | .ok rows =>
    (true,
     { events := rows
       periods := upsertPeriod db.periods
         { period_key := period_key, period_type := period_type
           start_date := start_date, end_date := end_date, is_complete := true } })

/-- The primary keys of a list of event rows. -/
def idsOf (ws : List EventRow) : List String := ws.map (fun r => r.id)

/-- The net effect of a sequence of `INSERT OR REPLACE` writes: only the last
write per primary key survives, in the order of those last writes. -/
def keepLast : List EventRow → List EventRow
  | [] => []
  | w :: rest => if (idsOf rest).contains w.id then keepLast rest else w :: keepLast rest

/-- Conversion performed by `get_events_from_database` from a row back to an
event dict: the stored value goes under `date` when `is_all_day` and under
`dateTime` otherwise, and `duration`/`category` columns are carried along; an
empty `color` becomes an absent `colorId`. -/
def rowToEvent (r : EventRow) : RawEvent :=
  { id := some r.id
    summary := some r.summary
    start :=
      some (if r.is_all_day then
              { date := match r.start_time with | some (.date d) => some d | _ => none
                dateTime := none }
            else
              { date := none
                dateTime := match r.start_time with | some (.dateTime t) => some t | _ => none })
    end_ :=
      some (if r.is_all_day then
              { date := match r.end_time with | some (.date d) => some d | _ => none
                dateTime := none }
            else
              { date := none
                dateTime := match r.end_time with | some (.dateTime t) => some t | _ => none })
    colorId := if r.color = "" then none else some r.color
    duration := some r.duration
    category := some r.category }

/-- `get_events_from_database(period_key)`: all rows whose `period_key`
matches, converted back to event dicts.  Any persistence-layer exception is
caught, logged, and turned into the empty list; `fault` injects such a
failure. -/
def get_events_from_database (db : DB) (period_key : String) (fault : Bool) :
    List RawEvent :=
  if fault then []
  else (db.events.filter (fun r => r.period_key == period_key)).map rowToEvent

/-- The outcome of the external fetch collaborator
(`service.events().list(...)`): a list of raw events, or an `HttpError`. -/
inductive FetchOutcome where
  | ok (events : List RawEvent)
  | httpError
deriving DecidableEq, Repr

/-- `get_events(start_date, end_date, period_type)`: on a complete cached
period, return the stored events; otherwise fetch from the collaborator
(`[]` when unauthenticated or on `HttpError`).  The result pairs the returned
events with the database state after the call. -/
def get_events (db : DB) (service : Bool) (fetch : FetchOutcome)
    (start_date end_date : Date) (period_type : String) :
    List RawEvent × DB :=
  let period_key := get_period_key period_type start_date end_date
  if is_period_in_database db period_key then
    (get_events_from_database db period_key false, db)
  else if !service then ([], db)
  else
    match fetch with
    | .ok evs => (evs, db)
    | .httpError => ([], db)

/-! ### Report aggregation (`generate_report`) -/

/-- The per-event data `generate_report` accumulates that the claims need:
summary, category, subcategory, and the duration computed inline by the loop.
Events without a `summary` key are skipped (`none`); where the loop subscripts
a missing dict key (`event['start']`, `event['end']['date']`,
`event['start']['dateTime']`, ...) a `KeyError` is raised. -/
def processEvent (cfg : Config) (event : RawEvent) :
    Except PyError (Option (String × String × String × Rat)) :=
  match event.summary with
  | none => .ok none
  | some summary =>
    let cs := report_categorize summary
    match event.start with
    | none => .error (.keyError "start")
    | some startTs =>
      match startTs.date with
      | some sd =>
        match event.end_ with
        | none => .error (.keyError "end")
        | some endTs =>
          match endTs.date with
          | none => .error (.keyError "date")
          | some ed =>
            .ok (some (summary, cs.1, cs.2,
              ((ed.toDays - sd.toDays : Int) : Rat) * cfg.all_day_event_hours))
      | none =>
        match startTs.dateTime with
        | none => .error (.keyError "dateTime")
        | some st =>
          match event.end_ with
          | none => .error (.keyError "end")
          | some endTs =>
            match endTs.dateTime with
            | none => .error (.keyError "dateTime")
            | some et => .ok (some (summary, cs.1, cs.2, (et - st) / 3600))

/-- The event loop of `generate_report`: an exception from any event aborts
the whole report. -/
def processEvents (cfg : Config) :
    List RawEvent → Except PyError (List (String × String × String × Rat))
  | [] => .ok []
  | ev :: rest =>
    match processEvent cfg ev with
    | .error e => .error e
    | .ok none => processEvents cfg rest
    | .ok (some x) => (processEvents cfg rest).map (fun xs => x :: xs)

/-- `event_durations[summary]`: total duration accumulated for one title. -/
def totalDuration (items : List (String × String × String × Rat)) (summary : String) : Rat :=
  (items.filter (fun it => it.1 == summary)).foldl (fun a it => a + it.2.2.2) 0

/-- `event_count[summary]`. -/
def occurrenceCount (items : List (String × String × String × Rat)) (summary : String) : Nat :=
  (items.filter (fun it => it.1 == summary)).length

/-- The distinct titles, in first-occurrence order (`defaultdict` key order). -/
def distinctSummaries (items : List (String × String × String × Rat)) : List String :=
  (items.map (fun it => it.1)).eraseDups

/-- `event_durations.items()`. -/
def summaryTotals (items : List (String × String × String × Rat)) : List (String × Rat) :=
  (distinctSummaries items).map (fun s => (s, totalDuration items s))

/-- `sorted(event_durations.items(), key=lambda x: x[1], reverse=True)`:
a stable sort, descending by total duration. -/
def sortByDurationDesc (l : List (String × Rat)) : List (String × Rat) :=
  l.insertionSort (fun a b => b.2 ≤ a.2)

/-- The entry rows `(title, occurrences, duration label)` emitted by the
"SUMMARY OF RECURRING EVENTS" loop.  In the source (lines 781-796) the
duration-formatting statements and the `print` of the row are indented inside
the `if` block of the filter, after its `continue`: a title failing the filter
executes `continue` first, and a title passing the filter never enters the
`if` block.  Either way nothing at all is emitted for the entry, which this
definition reproduces branch by branch. -/
def recurrenceRows : List (String × Rat) → List (String × Nat × String)
  | [] => []
  | (summary, _total) :: rest =>
    if atCount summary > 1 || !recurrence_pattern summary then
      recurrenceRows rest
    else
      recurrenceRows rest

/-- The recurrence-summary rows a report over `events` displays (or the
`KeyError` that aborts the report loop). -/
def report_recurrence_rows (cfg : Config) (events : List RawEvent) :
    Except PyError (List (String × Nat × String)) :=
  (processEvents cfg events).map
    (fun items => recurrenceRows (sortByDurationDesc (summaryTotals items)))

/-! ### Sample data used by witnesses and counterexamples -/

/-- The default configuration: 8 hours per all-day event, 5 working days. -/
def cfg8 : Config := { all_day_event_hours := 8, working_days_per_week := 5 }

/-- January 1, 2024. -/
def d1 : Date := ⟨2024, 1, 1⟩

/-- January 31, 2024. -/
def d2 : Date := ⟨2024, 1, 31⟩

/-- A one-day all-day event with a categorized title. -/
def evAllDay : RawEvent :=
  ⟨some "1", some "@ENG Standup", some ⟨some ⟨2024, 1, 1⟩, none⟩,
   some ⟨some ⟨2024, 1, 2⟩, none⟩, none, none, none⟩

/-- A timed event, 12:00 to 13:00 (seconds of the epoch day). -/
def evTimed : RawEvent :=
  ⟨some "2", some "Lunch", some ⟨none, some 43200⟩, some ⟨none, some 46800⟩,
   none, none, none⟩

/-- A timed event, 09:00 to 11:30. -/
def evTimed930 : RawEvent :=
  ⟨some "3", some "Mtg", some ⟨none, some 32400⟩, some ⟨none, some 41400⟩,
   none, none, none⟩

/-- An event with a title but no `start`/`end` keys at all. -/
def evNoStart : RawEvent := ⟨some "9", some "X", none, none, none, none, none⟩

/-- The empty database. -/
def emptyDB : DB := ⟨[], []⟩

/-- The key of January 2024 under period type `month_1`. -/
def keyJan : String := get_period_key "month_1" d1 d2

/-- A stored row for `evAllDay` under `keyJan`. -/
def rowSample : EventRow :=
  ⟨"1", "@ENG Standup", some (.date ⟨2024, 1, 1⟩), some (.date ⟨2024, 1, 2⟩),
   8, true, "ENG", keyJan, ""⟩

/-- A database in which January 2024 is stored and complete. -/
def dbHit : DB := ⟨[rowSample], [⟨keyJan, "month_1", d1, d2, true⟩]⟩

/-- A row with id `"1"` stored under an unrelated period key `"A"`. -/
def rowA : EventRow := ⟨"1", "old", none, none, 0, false, "Other", "A", ""⟩

/-- A database in which period `"A"` is complete and owns event id `"1"`. -/
def dbA : DB := ⟨[rowA], [⟨"A", "custom", d1, d1, true⟩]⟩

/-! ### Upsert lemmas -/

theorem find?_filter_of_imp (p q : α → Bool) (l : List α)
    (h : ∀ x, p x = true → q x = true) :
    (l.filter q).find? p = l.find? p := by
  induction l with
  | nil => rfl
  | cons a l ih =>
    by_cases hq : q a = true
    · by_cases hp : p a = true <;> simp [List.filter_cons, List.find?_cons, hq, hp, ih]
    · have hp : ¬ p a = true := fun hpa => hq (h a hpa)
      simp [List.filter_cons, List.find?_cons, hq, hp, ih]

theorem mem_keepLast {r : EventRow} : ∀ {ws : List EventRow}, r ∈ keepLast ws → r ∈ ws := by
  intro ws
  induction ws with
  | nil => simp [keepLast]
  | cons w rest ih =>
    unfold keepLast
    split
    · intro h; exact List.mem_cons_of_mem w (ih h)
    · intro h
      rcases List.mem_cons.mp h with h | h
      · exact h ▸ List.mem_cons_self w rest
      · exact List.mem_cons_of_mem w (ih h)

theorem mem_idsOf {a : String} {l : List EventRow} :
    a ∈ idsOf l ↔ ∃ r ∈ l, r.id = a := by
  simp [idsOf, List.mem_map]

theorem contains_id_true {l : List String} {a : String} (h : a ∈ l) :
    l.contains a = true :=
  List.elem_iff.mpr h

theorem contains_id_false {l : List String} {a : String} (h : a ∉ l) :
    l.contains a = false := by
  cases hc : l.contains a
  · rfl
  · exact absurd (List.elem_iff.mp hc) h

theorem exceptOk?_eq_some {x : Except StoreFailure (List EventRow)} {ws : List EventRow}
    (h : exceptOk? x = some ws) : x = .ok ws := by
  cases x with
  | ok w => simp [exceptOk?] at h; rw [h]
  | error e => simp [exceptOk?] at h

theorem idsOf_keepLast_nodup : ∀ ws : List EventRow, (idsOf (keepLast ws)).Nodup := by
  intro ws
  induction ws with
  | nil => simp [keepLast, idsOf]
  | cons w rest ih =>
    unfold keepLast
    split
    · exact ih
    · rename_i hc
      have hnotin : w.id ∉ idsOf (keepLast rest) := by
        intro hmem
        rcases mem_idsOf.mp hmem with ⟨r, hr, hid⟩
        have : w.id ∈ idsOf rest := mem_idsOf.mpr ⟨r, mem_keepLast hr, hid⟩
        rw [List.elem_iff] at hc
        exact hc this
      simpa [idsOf] using List.Nodup.cons (by simpa [idsOf] using hnotin) ih

theorem keepLast_cons (w : EventRow) (rest : List EventRow) :
    keepLast (w :: rest)
      = if (idsOf rest).contains w.id then keepLast rest else w :: keepLast rest := rfl

/-- Closed form of a sequence of event upserts: surviving old rows are the
ones whose id is not re-written, followed by the last write per id. -/
theorem foldl_upsert_closed :
    ∀ (ws : List EventRow) (rows : List EventRow),
      ws.foldl upsertEvent rows
        = rows.filter (fun r => !(idsOf ws).contains r.id) ++ keepLast ws := by
  intro ws
  induction ws with
  | nil => intro rows; simp [keepLast, idsOf]
  | cons w ws ih =>
    intro rows
    have step : (w :: ws).foldl upsertEvent rows = ws.foldl upsertEvent (upsertEvent rows w) :=
      rfl
    rw [step, ih, upsertEvent, List.filter_append, List.filter_filter]
    have hpt : ∀ r : EventRow,
        ((!(idsOf ws).contains r.id) && (r.id != w.id))
          = !(idsOf (w :: ws)).contains r.id := by
      intro r
      by_cases h1 : r.id = w.id <;>
        by_cases h2 : (idsOf ws).contains r.id = true <;>
          simp [idsOf, List.contains_cons, h1, h2, bne]
    have hfilter :
        rows.filter (fun r => (!(idsOf ws).contains r.id) && (r.id != w.id))
          = rows.filter (fun r => !(idsOf (w :: ws)).contains r.id) := by
      apply List.filter_congr
      intro r _
      exact hpt r
    rw [hfilter, List.append_assoc]
    congr 1
    rw [keepLast_cons]
    by_cases hm : w.id ∈ idsOf ws
    · have hc : (idsOf ws).contains w.id = true := List.elem_iff.mpr hm
      simp [hc, List.filter_cons, hm]
    · have hc : (idsOf ws).contains w.id = false := by
        simp [List.elem_iff]
        exact hm
      simp [hc, List.filter_cons, hm]

theorem keepLast_filter_self (ws : List EventRow) :
    (keepLast ws).filter (fun r => !(idsOf ws).contains r.id) = [] := by
  apply List.filter_eq_nil_iff.mpr
  intro r hr
  have : r.id ∈ idsOf ws := mem_idsOf.mpr ⟨r, mem_keepLast hr, rfl⟩
  simp [List.elem_iff]
  exact this

/-- Re-running the same write sequence leaves the events table unchanged. -/
theorem foldl_upsert_idem (ws rows : List EventRow) :
    ws.foldl upsertEvent (ws.foldl upsertEvent rows) = ws.foldl upsertEvent rows := by
  rw [foldl_upsert_closed ws rows, foldl_upsert_closed, List.filter_append,
    List.filter_filter, keepLast_filter_self, List.append_nil]
  congr 1
  apply List.filter_congr
  intro r _
  rw [Bool.and_self]

theorem upsertPeriod_idem (rows : List PeriodRow) (p : PeriodRow) :
    upsertPeriod (upsertPeriod rows p) p = upsertPeriod rows p := by
  unfold upsertPeriod
  rw [List.filter_append, List.filter_filter]
  have h1 : [p].filter (fun x => x.period_key != p.period_key) = [] := by
    simp [List.filter_cons]
  rw [h1, List.append_nil]
  congr 1
  apply List.filter_congr
  intro r _
  rw [Bool.and_self]

theorem is_period_upsert_self (E : List EventRow) (rows : List PeriodRow) (p : PeriodRow) :
    is_period_in_database ⟨E, upsertPeriod rows p⟩ p.period_key = p.is_complete := by
  unfold is_period_in_database upsertPeriod
  rw [List.find?_append]
  have hnone : (rows.filter (fun x => x.period_key != p.period_key)).find?
      (fun r => r.period_key == p.period_key) = none := by
    apply List.find?_eq_none.mpr
    intro x hx
    have h2 := (List.mem_filter.mp hx).2
    simp [bne] at h2
    simp [h2]
  rw [hnone]
  simp [List.find?_cons]

theorem is_period_upsert_other (E E2 : List EventRow) (rows : List PeriodRow)
    (p : PeriodRow) (k : String) (hk : k ≠ p.period_key) :
    is_period_in_database ⟨E, upsertPeriod rows p⟩ k
      = is_period_in_database ⟨E2, rows⟩ k := by
  unfold is_period_in_database upsertPeriod
  rw [List.find?_append]
  have hfix : (rows.filter (fun x => x.period_key != p.period_key)).find?
      (fun r => r.period_key == k) = rows.find? (fun r => r.period_key == k) := by
    apply find?_filter_of_imp
    intro x hx
    have : x.period_key = k := by simpa using hx
    simp [bne, this]
    exact fun h => hk h
  rw [hfix]
  cases hfind : rows.find? (fun r => r.period_key == k) with
  | some r => simp
  | none =>
    have : (p.period_key == k) = false := by
      simp
      exact fun h => hk h.symm
    simp [List.find?_cons, this]

/-! ### Store-loop lemmas -/

theorem storeEventsLoop_cons (cfg : Config) (pkey : String) (fault : Option Nat)
    (ev : RawEvent) (rest : List RawEvent) (i : Nat) (rows : List EventRow) :
    storeEventsLoop cfg pkey fault (ev :: rest) i rows
      = if fault = some i then .error .injected
        else
          match rowOfEvent cfg pkey ev with
          | .error e => .error (.pyErr e)
          | .ok none => storeEventsLoop cfg pkey fault rest (i + 1) rows
          | .ok (some r) => storeEventsLoop cfg pkey fault rest (i + 1) (upsertEvent rows r) :=
  rfl

theorem rowOfEvent_ok_some_fields (cfg : Config) (pkey : String) (ev : RawEvent)
    (r : EventRow) (h : rowOfEvent cfg pkey ev = .ok (some r)) :
    r.period_key = pkey ∧ ev.id = some r.id := by
  unfold rowOfEvent at h
  repeat' split at h
  all_goals simp_all
  all_goals (subst h; exact ⟨rfl, rfl⟩)

theorem rowOfEvent_ok_none_cases (cfg : Config) (pkey : String) (ev : RawEvent)
    (h : rowOfEvent cfg pkey ev = .ok none) :
    ev.id = none ∨ ev.summary = none := by
  unfold rowOfEvent at h
  split at h
  · repeat' split at h
    all_goals simp_all
  · rename_i hno
    rcases hid : ev.id with _ | idv
    · exact Or.inl rfl
    · rcases hsum : ev.summary with _ | sm
      · exact Or.inr rfl
      · exact (hno idv sm hid hsum).elim

theorem storeEventsLoop_preserves (cfg : Config) (pkey : String) (fault : Option Nat) :
    ∀ (evs : List RawEvent) (i : Nat) (rows out : List EventRow),
      storeEventsLoop cfg pkey fault evs i rows = .ok out →
      ∀ idv, (∃ row ∈ rows, row.id = idv ∧ row.period_key = pkey) →
        ∃ row ∈ out, row.id = idv ∧ row.period_key = pkey := by
  intro evs
  induction evs with
  | nil =>
    intro i rows out h idv hex
    simp [storeEventsLoop] at h
    exact h ▸ hex
  | cons ev rest ih =>
    intro i rows out h idv hex
    rw [storeEventsLoop_cons] at h
    by_cases hf : fault = some i
    · simp [hf] at h
    · simp only [if_neg hf] at h
      cases hrow : rowOfEvent cfg pkey ev with
      | error e2 => rw [hrow] at h; simp at h
      | ok val =>
        cases val with
        | none =>
          rw [hrow] at h
          exact ih _ _ _ h idv hex
        | some r =>
          rw [hrow] at h
          rcases hex with ⟨row, hmem, hidv, hpk⟩
          have hpkr : r.period_key = pkey := (rowOfEvent_ok_some_fields _ _ _ _ hrow).1
          by_cases hsame : row.id = r.id
          · refine ih _ _ _ h idv ⟨r, ?_, ?_, hpkr⟩
            · simp [upsertEvent]
            · rw [← hsame, hidv]
          · refine ih _ _ _ h idv ⟨row, ?_, hidv, hpk⟩
            exact List.mem_append_left _
              (List.mem_filter.mpr ⟨hmem, by simpa [bne] using hsame⟩)

theorem storeEventsLoop_ok_mem (cfg : Config) (pkey : String) (fault : Option Nat) :
    ∀ (evs : List RawEvent) (i : Nat) (rows out : List EventRow),
      storeEventsLoop cfg pkey fault evs i rows = .ok out →
      ∀ ev ∈ evs, ∀ idv sm, ev.id = some idv → ev.summary = some sm →
        ∃ row ∈ out, row.id = idv ∧ row.period_key = pkey := by
  intro evs
  induction evs with
  | nil => intro i rows out h ev hev; simp at hev
  | cons evh rest ih =>
    intro i rows out h ev hev idv sm hid hsum
    rw [storeEventsLoop_cons] at h
    by_cases hf : fault = some i
    · simp [hf] at h
    · simp only [if_neg hf] at h
      rcases List.mem_cons.mp hev with rfl | hev2
      · cases hrow : rowOfEvent cfg pkey ev with
        | error e2 => rw [hrow] at h; simp at h
        | ok val =>
          cases val with
          | none =>
            rcases rowOfEvent_ok_none_cases _ _ _ hrow with hn | hn
            · rw [hn] at hid; simp at hid
            · rw [hn] at hsum; simp at hsum
          | some r =>
            rw [hrow] at h
            have hfields := rowOfEvent_ok_some_fields _ _ _ _ hrow
            have hrid : r.id = idv := by
              rw [hfields.2] at hid
              exact (Option.some.injEq _ _).mp hid
            refine storeEventsLoop_preserves cfg pkey fault rest (i + 1) _ out h idv
              ⟨r, ?_, hrid, hfields.1⟩
            simp [upsertEvent]
      · cases hrow : rowOfEvent cfg pkey evh with
        | error e2 => rw [hrow] at h; simp at h
        | ok val =>
          cases val with
          | none => rw [hrow] at h; exact ih _ _ _ h ev hev2 idv sm hid hsum
          | some r => rw [hrow] at h; exact ih _ _ _ h ev hev2 idv sm hid hsum

theorem storeEventsLoop_fault (cfg : Config) (pkey : String) (k : Nat) :
    ∀ (evs : List RawEvent) (i : Nat) (rows : List EventRow),
      i ≤ k → k < i + evs.length →
      ∃ err, storeEventsLoop cfg pkey (some k) evs i rows = .error err := by
  intro evs
  induction evs with
  | nil =>
    intro i rows h1 h2
    simp at h2
    omega
  | cons ev rest ih =>
    intro i rows h1 h2
    rw [storeEventsLoop_cons]
    by_cases hf : (some k : Option Nat) = some i
    · exact ⟨.injected, by simp [hf]⟩
    · have hik : i < k := by
        have hne : k ≠ i := fun he => hf (by rw [he])
        omega
      simp only [if_neg hf]
      cases hrow : rowOfEvent cfg pkey ev with
      | error e2 => exact ⟨.pyErr e2, rfl⟩
      | ok val =>
        cases val with
        | none =>
          exact ih (i + 1) rows (by omega) (by simp at h2 ⊢; omega)
        | some r =>
          exact ih (i + 1) _ (by omega) (by simp at h2 ⊢; omega)

theorem storeEventsLoop_eq_writeList (cfg : Config) (pkey : String) :
    ∀ (evs : List RawEvent) (i : Nat) (rows : List EventRow),
      storeEventsLoop cfg pkey none evs i rows
        = (storeWriteList cfg pkey evs).map (fun ws => ws.foldl upsertEvent rows) := by
  intro evs
  induction evs with
  | nil => intro i rows; rfl
  | cons ev rest ih =>
    intro i rows
    rw [storeEventsLoop_cons]
    simp only [if_neg (fun h : (none : Option Nat) = some i => Option.noConfusion h)]
    split
    · rename_i e2 hrow
      simp [storeWriteList, hrow, Except.map]
    · rename_i hrow
      rw [ih]
      simp [storeWriteList, hrow]
    · rename_i r hrow
      rw [ih]
      simp only [storeWriteList, hrow]
      cases hwl : storeWriteList cfg pkey rest <;> simp [Except.map, List.foldl_cons]

theorem storeWriteList_pkey (cfg : Config) (pkey : String) :
    ∀ (evs : List RawEvent) (ws : List EventRow),
      storeWriteList cfg pkey evs = .ok ws → ∀ r ∈ ws, r.period_key = pkey := by
  intro evs
  induction evs with
  | nil =>
    intro ws h r hr
    simp [storeWriteList] at h
    subst h
    simp at hr
  | cons ev rest ih =>
    intro ws h r hr
    unfold storeWriteList at h
    cases hrow : rowOfEvent cfg pkey ev with
    | error e2 => rw [hrow] at h; simp at h
    | ok val =>
      cases val with
      | none => rw [hrow] at h; exact ih _ h r hr
      | some r2 =>
        rw [hrow] at h
        cases hwl : storeWriteList cfg pkey rest with
        | error e2 => rw [hwl] at h; simp [Except.map] at h
        | ok ws2 =>
          rw [hwl] at h
          simp only [Except.map] at h
          have hws : ws = r2 :: ws2 := by
            cases h
            rfl
          rw [hws] at hr
          rcases List.mem_cons.mp hr with rfl | htail
          · exact (rowOfEvent_ok_some_fields _ _ _ _ hrow).1
          · exact ih _ hwl r htail

/-! ### Claim C2 -/

/-- C2, counterexample: on a cache miss, `get_events` returns the fetched
events but does not invoke the store: the database afterwards is exactly the
empty pre-call database, the period key is still not complete, and actually
persisting those events would have produced a different state.  This refutes
"on a miss it fetches events ... and then asks the store to persist them
before they are handed to report aggregation". -/
theorem C2_counterexample :
    (get_events emptyDB true (.ok [evAllDay]) d1 d2 "month_1").1 = [evAllDay]
  ∧ (get_events emptyDB true (.ok [evAllDay]) d1 d2 "month_1").2 = emptyDB
  ∧ is_period_in_database (get_events emptyDB true (.ok [evAllDay]) d1 d2 "month_1").2 keyJan
      = false
  ∧ (store_period_in_database cfg8 emptyDB "month_1" d1 d2 [evAllDay] none).2 ≠ emptyDB := by
  refine ⟨rfl, rfl, rfl, ?_⟩
  decide

/-- C2, amended: `get_events` first checks whether the derived period key is
complete; on a hit it returns the events stored for that key via
`get_events_from_database`; on a miss it fetches from the external
collaborator and returns the fetched events directly, never modifying the
store (persistence happens only through a separate explicit
`store_period_in_database` call). -/
theorem C2_get_events_flow (db : DB) (service : Bool) (fetch : FetchOutcome)
    (s e : Date) (pt : String) :
    (get_events db service fetch s e pt).2 = db
  ∧ (is_period_in_database db (get_period_key pt s e) = true →
      (get_events db service fetch s e pt).1
        = get_events_from_database db (get_period_key pt s e) false)
  ∧ (is_period_in_database db (get_period_key pt s e) = false → service = true →
      ∀ evs, fetch = .ok evs → (get_events db service fetch s e pt).1 = evs)
  ∧ (is_period_in_database db (get_period_key pt s e) = false →
      (service = false ∨ fetch = .httpError) →
      (get_events db service fetch s e pt).1 = []) := by
  refine ⟨?_, ?_, ?_, ?_⟩
  · cases hC : is_period_in_database db (get_period_key pt s e) <;>
      cases service <;> cases fetch <;> simp [get_events, hC]
  · intro h
    simp [get_events, h]
  · intro h hsvc evs hf
    subst hsvc
    simp [get_events, h, hf]
  · intro h hcase
    rcases hcase with h2 | h2 <;> subst h2 <;> simp [get_events, h]

/-- Witness for `C2_get_events_flow`: on a database where January 2024 is
complete, `get_events` returns the stored events without fetching. -/
theorem C2_get_events_flow_witness :
    is_period_in_database dbHit (get_period_key "month_1" d1 d2) = true
  ∧ (get_events dbHit true .httpError d1 d2 "month_1").1
      = get_events_from_database dbHit (get_period_key "month_1" d1 d2) false :=
  ⟨by decide, (C2_get_events_flow dbHit true .httpError d1 d2 "month_1").2.1 (by decide)⟩

/-! ### Claim C3 -/

/-- C3, counterexample: a failing database load yields `[]`, exactly the value
a successful load of an empty store yields; and a failing fetch makes
`get_events` return exactly what a successful zero-event fetch returns.  This
refutes "for every failing fetch or load, the returned value is not equal to
the value returned by a successful call that found no events". -/
theorem C3_counterexample :
    get_events_from_database dbHit keyJan true = []
  ∧ get_events_from_database emptyDB keyJan false = []
  ∧ get_events_from_database dbHit keyJan true = get_events_from_database emptyDB keyJan false
  ∧ get_events emptyDB true .httpError d1 d2 "month_1"
      = get_events emptyDB true (.ok []) d1 d2 "month_1" := by
  exact ⟨rfl, rfl, rfl, rfl⟩

/-- C3, amended: a failing load and a failing fetch are swallowed into the
empty list — the same value as a successful call that found no events — so the
caller cannot distinguish failure from emptiness in the returned value. -/
theorem C3_failure_yields_empty (db : DB) (pkey : String) :
    get_events_from_database db pkey true = []
  ∧ (∀ s e pt, is_period_in_database db (get_period_key pt s e) = false →
      (get_events db true .httpError s e pt).1 = []) := by
  constructor
  · rfl
  · intro s e pt h
    simp [get_events, h]

/-- Witness for `C3_failure_yields_empty` at the empty database. -/
theorem C3_failure_yields_empty_witness :
    is_period_in_database emptyDB (get_period_key "month_1" d1 d2) = false
  ∧ (get_events emptyDB true .httpError d1 d2 "month_1").1 = [] :=
  ⟨by decide, (C3_failure_yields_empty emptyDB keyJan).2 d1 d2 "month_1" (by decide)⟩

/-! ### Claim C9 -/

theorem decChar_inj : ∀ a, a < 10 → ∀ b, b < 10 → decChar a = decChar b → a = b := by
  decide

theorem padChars_succ (w n : Nat) :
    padChars (w + 1) n = decChar (n / 10 ^ w % 10) :: padChars w n := by
  simp [padChars, List.range_succ]

theorem padChars_length (w n : Nat) : (padChars w n).length = w := by
  simp [padChars]

theorem padChars_mod : ∀ (w n : Nat), padChars w n = padChars w (n % 10 ^ w) := by
  intro w
  induction w with
  | zero => intro n; rfl
  | succ w ih =>
    intro n
    rw [padChars_succ, padChars_succ]
    congr 1
    · have h1 : n % 10 ^ (w + 1) / 10 ^ w = n / 10 ^ w % 10 := by
        rw [pow_succ]
        exact Nat.mod_mul_right_div_self n (10 ^ w) 10
      rw [h1, Nat.mod_mod_of_dvd _ (dvd_refl 10)]
    · rw [ih n, ih (n % 10 ^ (w + 1))]
      congr 1
      exact (Nat.mod_mod_of_dvd n (pow_dvd_pow 10 (Nat.le_succ w))).symm

theorem padChars_inj : ∀ (w n m : Nat), n < 10 ^ w → m < 10 ^ w →
    padChars w n = padChars w m → n = m := by
  intro w
  induction w with
  | zero =>
    intro n m hn hm _
    simp [pow_zero] at hn hm
    omega
  | succ w ih =>
    intro n m hn hm h
    rw [padChars_succ, padChars_succ] at h
    injection h with h1 h2
    have hpos : 0 < (10 : Nat) ^ w := by positivity
    have hd : n / 10 ^ w % 10 = m / 10 ^ w % 10 :=
      decChar_inj _ (Nat.mod_lt _ (by norm_num)) _ (Nat.mod_lt _ (by norm_num)) h1
    have hn' : n / 10 ^ w < 10 := by
      rw [Nat.div_lt_iff_lt_mul hpos]
      rw [pow_succ] at hn
      omega
    have hm' : m / 10 ^ w < 10 := by
      rw [Nat.div_lt_iff_lt_mul hpos]
      rw [pow_succ] at hm
      omega
    have hdiv : n / 10 ^ w = m / 10 ^ w := by
      rwa [Nat.mod_eq_of_lt hn', Nat.mod_eq_of_lt hm'] at hd
    have hmod : n % 10 ^ w = m % 10 ^ w := by
      apply ih _ _ (Nat.mod_lt _ hpos) (Nat.mod_lt _ hpos)
      rw [← padChars_mod, ← padChars_mod]
      exact h2
    calc n = 10 ^ w * (n / 10 ^ w) + n % 10 ^ w := (Nat.div_add_mod n (10 ^ w)).symm
      _ = 10 ^ w * (m / 10 ^ w) + m % 10 ^ w := by rw [hdiv, hmod]
      _ = m := Nat.div_add_mod m (10 ^ w)

theorem ymdChars_length (d : Date) : (ymdChars d).length = 8 := by
  simp [ymdChars, padChars_length]

theorem ymdChars_inj (d d' : Date) (h : validDate d) (h' : validDate d')
    (he : ymdChars d = ymdChars d') : d = d' := by
  unfold ymdChars at he
  obtain ⟨hy1, hy2, hm1, hm2, hd1, hd2⟩ := h
  obtain ⟨hy1', hy2', hm1', hm2', hd1', hd2'⟩ := h'
  rcases List.append_inj
      (by simpa [List.append_assoc] using he)
      (by rw [padChars_length, padChars_length]) with ⟨hys, hrest⟩
  rcases List.append_inj hrest
      (by rw [padChars_length, padChars_length]) with ⟨hms, hds⟩
  have hy : d.year = d'.year :=
    padChars_inj 4 _ _ (Nat.lt_of_le_of_lt hy2 (by norm_num))
      (Nat.lt_of_le_of_lt hy2' (by norm_num)) hys
  have hmth : d.month = d'.month :=
    padChars_inj 2 _ _ (Nat.lt_of_le_of_lt hm2 (by norm_num))
      (Nat.lt_of_le_of_lt hm2' (by norm_num)) hms
  have hday : d.day = d'.day :=
    padChars_inj 2 _ _ (Nat.lt_of_le_of_lt hd2 (by norm_num))
      (Nat.lt_of_le_of_lt hd2' (by norm_num)) hds
  cases d
  cases d'
  simp_all

theorem get_period_key_data (kind : String) (a b : Date) :
    (get_period_key kind a b).data
      = kind.data ++ ('_' :: (ymdChars a ++ '_' :: ymdChars b)) := by
  show (kind ++ "_" ++ strftimeYmd a ++ "_" ++ strftimeYmd b).data = _
  simp [strftimeYmd, String.data]

theorem get_period_key_inj (kind : String) (s e s' e' : Date)
    (hs : validDate s) (hev : validDate e) (hs' : validDate s') (hev' : validDate e')
    (h : get_period_key kind s e = get_period_key kind s' e') : s = s' ∧ e = e' := by
  have hd : (get_period_key kind s e).data = (get_period_key kind s' e').data := by
    rw [h]
  rw [get_period_key_data, get_period_key_data] at hd
  have h2 := List.append_cancel_left hd
  injection h2 with _ h3
  rcases List.append_inj h3
      (by rw [ymdChars_length, ymdChars_length]) with ⟨hse, hee⟩
  injection hee with _ hee2
  exact ⟨ymdChars_inj s s' hs hs' hse, ymdChars_inj e e' hev hev' hee2⟩

/-- C9: `get_period_key` is deterministic, returns exactly the string
`kind ++ "_" ++ start.strftime("%Y%m%d") ++ "_" ++ end.strftime("%Y%m%d")`,
and for a fixed kind any two different `(start, end)` pairs of valid dates
yield different keys. -/
theorem C9_period_key (kind : String) (s e s' e' : Date)
    (hs : validDate s) (hev : validDate e) (hs' : validDate s') (hev' : validDate e') :
    get_period_key kind s e = get_period_key kind s e
  ∧ get_period_key kind s e = kind ++ "_" ++ strftimeYmd s ++ "_" ++ strftimeYmd e
  ∧ ((s, e) ≠ (s', e') → get_period_key kind s e ≠ get_period_key kind s' e') := by
  refine ⟨rfl, rfl, ?_⟩
  intro hne h
  rcases get_period_key_inj kind s e s' e' hs hev hs' hev' h with ⟨h1, h2⟩
  exact hne (by rw [h1, h2])

/-- Witness for `C9_period_key`: the January 2024 key renders as
`"month_1_20240101_20240131"` and differs from the key of a different end
date. -/
theorem C9_period_key_witness :
    (validDate d1 ∧ validDate d2 ∧ validDate ⟨2024, 2, 1⟩
     ∧ (d1, d2) ≠ (d1, (⟨2024, 2, 1⟩ : Date)))
  ∧ get_period_key "month_1" d1 d2 = "month_1_20240101_20240131"
  ∧ get_period_key "month_1" d1 d2 ≠ get_period_key "month_1" d1 ⟨2024, 2, 1⟩ := by
  refine ⟨⟨by decide, by decide, by decide, by decide⟩, by decide, ?_⟩
  exact (C9_period_key "month_1" d1 d2 d1 ⟨2024, 2, 1⟩ (by decide) (by decide)
    (by decide) (by decide)).2.2 (by decide)

/-! ### Claim C4 -/

/-- C4: the recurrence summary never contains any entry — for no input does
the loop emit a `(title, occurrences, duration label)` row, because the
formatting and print statements sit inside the filter's `if` block after its
`continue` and are unreachable.  In particular a report over a single event
titled `"@ENG Standup"`, whose title passes the documented filter (one `@`,
matching the tag pattern), still yields an empty summary, contradicting the
claimed algorithm. -/
theorem C4_recurrence_summary_empty :
    (∀ l, recurrenceRows l = [])
  ∧ report_recurrence_rows cfg8 [evAllDay] = .ok []
  ∧ atCount "@ENG Standup" = 1
  ∧ recurrence_pattern "@ENG Standup" = true := by
  have hall : ∀ l, recurrenceRows l = [] := by
    intro l
    induction l with
    | nil => rfl
    | cons hd tl ih => cases hd with | mk s d => simp [recurrenceRows, ih]
  refine ⟨hall, ?_, by decide, by decide⟩
  show (processEvents cfg8 [evAllDay]).map
      (fun items => recurrenceRows (sortByDurationDesc (summaryTotals items))) = .ok []
  simp only [hall]
  rfl

/-! ### Claim C5 -/

/-- C5, counterexample: the claim says one rule governs both the report-time
categorization and the category persisted by `store_period_in_database`, and
that `"@ENG_Fix bug"` yields category `"ENG"`.  At report time it does, but
the store's regex uses `\s+` as separator, so the persisted category of
`"@ENG_Fix bug"` is `"Other"`. -/
theorem C5_counterexample :
    (report_categorize "@ENG_Fix bug").1 = "ENG"
  ∧ store_category "@ENG_Fix bug" = "Other" := by
  decide

/-- C5, amended: the rule `^@([A-Z]{3})[ _](.*)` governs report-time
categorization (so `"@ENG Fix bug"` and `"@ENG_Fix bug"` give
`("ENG", "Fix bug")` and `"Team sync"` gives `("Other", "Team sync")`), while
the category persisted by `store_period_in_database` comes from the variant
pattern `^@([A-Z]{3})\s+(.*)`: the two agree whenever the separator is a
space, but an underscore-separated title is persisted as `"Other"`. -/
theorem C5_categorize (s : String) (a b c : Char) (rest : List Char) :
    (report_categorize "@ENG Fix bug" = ("ENG", "Fix bug")
     ∧ report_categorize "@ENG_Fix bug" = ("ENG", "Fix bug")
     ∧ report_categorize "Team sync" = ("Other", "Team sync"))
  ∧ (s.data = '@' :: a :: b :: c :: ' ' :: rest →
     isUpperAZ a = true → isUpperAZ b = true → isUpperAZ c = true →
     report_categorize s
         = (String.mk [a, b, c], String.mk (rest.takeWhile (fun ch => ch != '\n')))
       ∧ store_category s = String.mk [a, b, c])
  ∧ (s.data = '@' :: a :: b :: c :: '_' :: rest →
     isUpperAZ a = true → isUpperAZ b = true → isUpperAZ c = true →
     (report_categorize s).1 = String.mk [a, b, c]
       ∧ store_category s = "Other") := by
  refine ⟨by decide, ?_, ?_⟩
  · intro h ha hb hc
    constructor
    · unfold report_categorize
      rw [h]
      simp [ha, hb, hc]
    · unfold store_category
      rw [h]
      simp [ha, hb, hc, pyWhitespace]
  · intro h ha hb hc
    constructor
    · unfold report_categorize
      rw [h]
      simp [ha, hb, hc]
    · unfold store_category
      rw [h]
      simp [ha, hb, hc, pyWhitespace]

/-- Witness for `C5_categorize` at `"@ENG Fix bug"` and `"@ENG_Fix bug"`. -/
theorem C5_categorize_witness :
    (("@ENG Fix bug" : String).data
       = '@' :: 'E' :: 'N' :: 'G' :: ' ' :: ("Fix bug" : String).data
     ∧ report_categorize "@ENG Fix bug"
         = (String.mk ['E', 'N', 'G'],
            String.mk (("Fix bug" : String).data.takeWhile (fun ch => ch != '\n')))
     ∧ store_category "@ENG Fix bug" = String.mk ['E', 'N', 'G'])
  ∧ (("@ENG_Fix bug" : String).data
       = '@' :: 'E' :: 'N' :: 'G' :: '_' :: ("Fix bug" : String).data
     ∧ (report_categorize "@ENG_Fix bug").1 = String.mk ['E', 'N', 'G']
     ∧ store_category "@ENG_Fix bug" = "Other") := by
  have h1 := (C5_categorize "@ENG Fix bug" 'E' 'N' 'G' ("Fix bug" : String).data).2.1
    (by decide) (by decide) (by decide) (by decide)
  have h2 := (C5_categorize "@ENG_Fix bug" 'E' 'N' 'G' ("Fix bug" : String).data).2.2
    (by decide) (by decide) (by decide) (by decide)
  exact ⟨⟨by decide, h1.1, h1.2⟩, ⟨by decide, h2.1, h2.2⟩⟩

/-! ### Claim C6 -/

/-- C6: `calculate_event_duration` gives an all-day event (calendar dates on
both ends, end exclusive) `(end - start).days * all_day_event_hours` hours —
exactly `all_day_event_hours` when `end = start + 1 day`, and a negative
value, passed through unmodified, when `end` is before `start`; a timed event
gets elapsed seconds divided by 3600 on absolute instants; an event populating
neither representation gets `0.0`. -/
theorem C6_duration (cfg : Config) (event : RawEvent) :
    (∀ sd ed,
        event.start.bind (fun t => t.date) = some sd →
        event.end_.bind (fun t => t.date) = some ed →
        calculate_event_duration cfg event
            = ((ed.toDays - sd.toDays : Int) : Rat) * cfg.all_day_event_hours
          ∧ (ed.toDays = sd.toDays + 1 →
              calculate_event_duration cfg event = cfg.all_day_event_hours)
          ∧ (ed.toDays < sd.toDays → 0 < cfg.all_day_event_hours →
              calculate_event_duration cfg event < 0))
  ∧ (∀ st et,
        (event.start.bind (fun t => t.date) = none
          ∨ event.end_.bind (fun t => t.date) = none) →
        event.start.bind (fun t => t.dateTime) = some st →
        event.end_.bind (fun t => t.dateTime) = some et →
        calculate_event_duration cfg event = (et - st) / 3600)
  ∧ ((event.start.bind (fun t => t.date) = none
        ∨ event.end_.bind (fun t => t.date) = none) →
     (event.start.bind (fun t => t.dateTime) = none
        ∨ event.end_.bind (fun t => t.dateTime) = none) →
     calculate_event_duration cfg event = 0) := by
  refine ⟨?_, ?_, ?_⟩
  · intro sd ed hsd hed
    rcases hstart : event.start with _ | s
    · rw [hstart] at hsd; simp at hsd
    rcases hend : event.end_ with _ | t
    · rw [hend] at hed; simp at hed
    rw [hstart] at hsd; rw [hend] at hed
    simp only [Option.some_bind] at hsd hed
    have hdur : calculate_event_duration cfg event
        = ((ed.toDays - sd.toDays : Int) : Rat) * cfg.all_day_event_hours := by
      simp [calculate_event_duration, hstart, hend, hsd, hed]
    refine ⟨hdur, ?_, ?_⟩
    · intro h1
      rw [hdur, h1]
      push_cast
      ring
    · intro hlt hpos
      rw [hdur]
      apply mul_neg_of_neg_of_pos _ hpos
      have h : (ed.toDays - sd.toDays : Int) < 0 := by omega
      exact_mod_cast h
  · intro st et hnone hst het
    rcases hstart : event.start with _ | s
    · rw [hstart] at hst; simp at hst
    rcases hend : event.end_ with _ | t
    · rw [hend] at het; simp at het
    rw [hstart] at hst; rw [hend] at het
    simp only [Option.some_bind] at hst het
    rw [hstart, hend] at hnone
    simp only [Option.some_bind] at hnone
    rcases hnone with h | h
    · simp [calculate_event_duration, hstart, hend, h, hst, het]
    · rcases hsd : s.date with _ | sd <;>
        simp [calculate_event_duration, hstart, hend, hsd, h, hst, het]
  · intro hdates htimes
    rcases hstart : event.start with _ | s
    · simp [calculate_event_duration, hstart]
    rcases hend : event.end_ with _ | t
    · rcases hsd : s.date with _ | sd <;>
        simp [calculate_event_duration, hstart, hend, hsd]
    rw [hstart, hend] at hdates htimes
    simp only [Option.some_bind] at hdates htimes
    rcases hdates with h | h
    · rcases htimes with h2 | h2
      · simp [calculate_event_duration, hstart, hend, h, h2]
      · rcases hst : s.dateTime with _ | st <;>
          simp [calculate_event_duration, hstart, hend, h, h2, hst]
    · rcases hsd : s.date with _ | sd
      · rcases htimes with h2 | h2
        · simp [calculate_event_duration, hstart, hend, hsd, h2]
        · rcases hst : s.dateTime with _ | st <;>
            simp [calculate_event_duration, hstart, hend, hsd, h2, hst]
      · rcases htimes with h2 | h2
        · simp [calculate_event_duration, hstart, hend, hsd, h, h2]
        · rcases hst : s.dateTime with _ | st <;>
            simp [calculate_event_duration, hstart, hend, hsd, h, h2, hst]

/-- Witness for `C6_duration`: the spec's concrete cases — a one-day all-day
event with 8 configured hours yields `8.0`, a 09:00-11:30 timed event yields
`2.5`, and an event with neither representation yields `0.0`. -/
theorem C6_duration_witness :
    calculate_event_duration cfg8 evAllDay = 8
  ∧ calculate_event_duration cfg8 evTimed930 = 5 / 2
  ∧ calculate_event_duration cfg8 evNoStart = 0 := by
  refine ⟨?_, ?_, ?_⟩
  · have h := ((C6_duration cfg8 evAllDay).1 ⟨2024, 1, 1⟩ ⟨2024, 1, 2⟩ rfl rfl).2.1
      (by decide)
    exact h
  · have h := (C6_duration cfg8 evTimed930).2.1 32400 41400 (Or.inl rfl) rfl rfl
    rw [h]
    norm_num
  · exact (C6_duration cfg8 evNoStart).2.2 (Or.inl rfl) (Or.inl rfl)

/-! ### Claim C7 -/

/-- C1: `store_period_in_database` is atomic: on success the derived key is
complete and every valid event (one with both `id` and `summary`) has a
durably written row under that key; on failure the observable state — the
whole database, hence `is_period_in_database` and
`get_events_from_database` for every key — is exactly the pre-call state; a
fault injected after writing some but not all events always fails and rolls
back, so no execution leaves `complete = true` alongside a partially written
event set. -/
theorem C1_store_atomic (cfg : Config) (db : DB) (pt : String) (s e : Date)
    (events : List RawEvent) (fault : Option Nat) :
    ((store_period_in_database cfg db pt s e events fault).1 = true →
        is_period_in_database (store_period_in_database cfg db pt s e events fault).2
          (get_period_key pt s e) = true
      ∧ ∀ ev ∈ events, ∀ idv sm, ev.id = some idv → ev.summary = some sm →
          ∃ row ∈ (store_period_in_database cfg db pt s e events fault).2.events,
            row.id = idv ∧ row.period_key = get_period_key pt s e)
  ∧ ((store_period_in_database cfg db pt s e events fault).1 = false →
      (store_period_in_database cfg db pt s e events fault).2 = db)
  ∧ (∀ k, fault = some k → k < events.length →
      (store_period_in_database cfg db pt s e events fault).1 = false
      ∧ (store_period_in_database cfg db pt s e events fault).2 = db
      ∧ ∀ key,
          is_period_in_database (store_period_in_database cfg db pt s e events fault).2 key
            = is_period_in_database db key
          ∧ ∀ f, get_events_from_database
                  (store_period_in_database cfg db pt s e events fault).2 key f
                = get_events_from_database db key f) := by
  refine ⟨?_, ?_, ?_⟩
  · intro hsucc
    cases hloop : storeEventsLoop cfg (get_period_key pt s e) fault events 0 db.events with
    | error err =>
      have hst : store_period_in_database cfg db pt s e events fault = (false, db) := by
        unfold store_period_in_database
        simp only [hloop]
      rw [hst] at hsucc
      simp at hsucc
    | ok rows =>
      have hst : store_period_in_database cfg db pt s e events fault
          = (true,
             ⟨rows, upsertPeriod db.periods
               ⟨get_period_key pt s e, pt, s, e, true⟩⟩) := by
        unfold store_period_in_database
        simp only [hloop]
      rw [hst]
      constructor
      · exact is_period_upsert_self rows db.periods ⟨get_period_key pt s e, pt, s, e, true⟩
      · intro ev hev idv sm hid hsum
        exact storeEventsLoop_ok_mem cfg _ fault events 0 db.events rows hloop ev hev
          idv sm hid hsum
  · intro hfail
    cases hloop : storeEventsLoop cfg (get_period_key pt s e) fault events 0 db.events with
    | error err =>
      unfold store_period_in_database
      simp only [hloop]
    | ok rows =>
      have hst : (store_period_in_database cfg db pt s e events fault).1 = true := by
        unfold store_period_in_database
        simp only [hloop]
      rw [hst] at hfail
      simp at hfail
  · intro k hk hlen
    subst hk
    obtain ⟨err, herr⟩ := storeEventsLoop_fault cfg (get_period_key pt s e) k events 0
      db.events (Nat.zero_le k) (by simpa using hlen)
    have hst : store_period_in_database cfg db pt s e events (some k) = (false, db) := by
      unfold store_period_in_database
      simp only [herr]
    rw [hst]
    exact ⟨rfl, rfl, fun key => ⟨rfl, fun f => rfl⟩⟩

/-- Witness for `C1_store_atomic`: a successful store of one valid event makes
January 2024 complete, and an injected fault at the first event write leaves a
pre-populated database exactly unchanged. -/
theorem C1_store_atomic_witness :
    ((store_period_in_database cfg8 emptyDB "month_1" d1 d2 [evAllDay] none).1 = true
     ∧ is_period_in_database
         (store_period_in_database cfg8 emptyDB "month_1" d1 d2 [evAllDay] none).2
         (get_period_key "month_1" d1 d2) = true)
  ∧ ((0 : Nat) < ([evAllDay] : List RawEvent).length
     ∧ (store_period_in_database cfg8 dbHit "month_1" d1 d2 [evAllDay] (some 0)).2 = dbHit) := by
  refine ⟨⟨by decide, ?_⟩, by decide, ?_⟩
  · exact ((C1_store_atomic cfg8 emptyDB "month_1" d1 d2 [evAllDay] none).1 (by decide)).1
  · exact ((C1_store_atomic cfg8 dbHit "month_1" d1 d2 [evAllDay] (some 0)).2.2 0 rfl
      (by decide)).2.1

/-- C8: storing the same `(kind, start, end, events)` twice leaves the store
in exactly the state one call produces: the second call returns the same
result and state, the key is complete, and `get_events_from_database` returns
the same event list both times. -/
theorem C8_store_idempotent (cfg : Config) (db : DB) (pt : String) (s e : Date)
    (events : List RawEvent) :
    store_period_in_database cfg
        (store_period_in_database cfg db pt s e events none).2 pt s e events none
      = store_period_in_database cfg db pt s e events none
  ∧ ((store_period_in_database cfg db pt s e events none).1 = true →
      is_period_in_database (store_period_in_database cfg db pt s e events none).2
        (get_period_key pt s e) = true
      ∧ get_events_from_database
          (store_period_in_database cfg
            (store_period_in_database cfg db pt s e events none).2 pt s e events none).2
          (get_period_key pt s e) false
        = get_events_from_database (store_period_in_database cfg db pt s e events none).2
            (get_period_key pt s e) false) := by
  cases hw : storeWriteList cfg (get_period_key pt s e) events with
  | error err =>
    have hloop : ∀ E : List EventRow,
        storeEventsLoop cfg (get_period_key pt s e) none events 0 E = .error err := by
      intro E
      rw [storeEventsLoop_eq_writeList, hw]
      rfl
    have hst : store_period_in_database cfg db pt s e events none = (false, db) := by
      unfold store_period_in_database
      simp only [hloop]
    rw [hst]
    refine ⟨?_, ?_⟩
    · unfold store_period_in_database
      simp only [hloop]
    · intro h
      simp at h
  | ok ws =>
    have hloop : ∀ E : List EventRow,
        storeEventsLoop cfg (get_period_key pt s e) none events 0 E
          = .ok (ws.foldl upsertEvent E) := by
      intro E
      rw [storeEventsLoop_eq_writeList, hw]
      rfl
    have hst : store_period_in_database cfg db pt s e events none
        = (true,
           ⟨ws.foldl upsertEvent db.events,
            upsertPeriod db.periods ⟨get_period_key pt s e, pt, s, e, true⟩⟩) := by
      unfold store_period_in_database
      simp only [hloop]
    have hst2 : store_period_in_database cfg
        (store_period_in_database cfg db pt s e events none).2 pt s e events none
        = store_period_in_database cfg db pt s e events none := by
      rw [hst]
      unfold store_period_in_database
      simp only [hloop]
      rw [foldl_upsert_idem, upsertPeriod_idem]
    refine ⟨hst2, fun _ => ⟨?_, ?_⟩⟩
    · rw [hst]
      exact is_period_upsert_self _ db.periods ⟨get_period_key pt s e, pt, s, e, true⟩
    · rw [hst2]

/-- Witness for `C8_store_idempotent`: a concrete successful store of one
event, whose key is then complete. -/
theorem C8_store_idempotent_witness :
    (store_period_in_database cfg8 emptyDB "month_1" d1 d2 [evAllDay] none).1 = true
  ∧ is_period_in_database
      (store_period_in_database cfg8 emptyDB "month_1" d1 d2 [evAllDay] none).2
      (get_period_key "month_1" d1 d2) = true :=
  ⟨by decide,
   ((C8_store_idempotent cfg8 emptyDB "month_1" d1 d2 [evAllDay]).2 (by decide)).1⟩

/-- C10: each stored event id has exactly one row (ids stay duplicate-free),
carrying the key of the most recent store whose event set wrote that id; a
store never deletes rows whose ids it does not write, and re-storing an id
under a new key `B` removes it from the rows of any earlier key `A` while
`is_period_in_database A` is unchanged. -/
theorem C10_store_key_migration (cfg : Config) (db : DB) (pt : String) (s e : Date)
    (events : List RawEvent) (ws : List EventRow) (A : String)
    (hws : storeWriteList cfg (get_period_key pt s e) events = .ok ws)
    (hA : A ≠ get_period_key pt s e) :
    ((idsOf db.events).Nodup →
      (idsOf (store_period_in_database cfg db pt s e events none).2.events).Nodup)
  ∧ (∀ row ∈ (store_period_in_database cfg db pt s e events none).2.events,
      row.id ∈ idsOf ws → row.period_key = get_period_key pt s e)
  ∧ (∀ row ∈ db.events, row.id ∉ idsOf ws →
      row ∈ (store_period_in_database cfg db pt s e events none).2.events)
  ∧ (∀ row ∈ db.events, row.period_key = A → row.id ∈ idsOf ws →
      row ∉ (store_period_in_database cfg db pt s e events none).2.events)
  ∧ is_period_in_database (store_period_in_database cfg db pt s e events none).2 A
      = is_period_in_database db A := by
  have hloop : storeEventsLoop cfg (get_period_key pt s e) none events 0 db.events
      = .ok (ws.foldl upsertEvent db.events) := by
    rw [storeEventsLoop_eq_writeList, hws]
    rfl
  have hst : store_period_in_database cfg db pt s e events none
      = (true,
         ⟨ws.foldl upsertEvent db.events,
          upsertPeriod db.periods ⟨get_period_key pt s e, pt, s, e, true⟩⟩) := by
    unfold store_period_in_database
    simp only [hloop]
  have hpk : ∀ r ∈ ws, r.period_key = get_period_key pt s e :=
    storeWriteList_pkey cfg _ events ws hws
  rw [hst, foldl_upsert_closed]
  refine ⟨?_, ?_, ?_, ?_, ?_⟩
  · intro hnod
    simp only [idsOf, List.map_append]
    apply List.Nodup.append
    · exact List.Nodup.sublist (List.Sublist.map _ (List.filter_sublist _)) hnod
    · exact idsOf_keepLast_nodup ws
    · intro a haF haK
      rcases List.mem_map.mp haF with ⟨rF, hrF, hida⟩
      have haws : rF.id ∈ idsOf ws := by
        rcases List.mem_map.mp haK with ⟨rK, hrK, hidK⟩
        rw [hida, ← hidK]
        exact mem_idsOf.mpr ⟨rK, mem_keepLast hrK, rfl⟩
      have hPF := (List.mem_filter.mp hrF).2
      simp at hPF
      rcases mem_idsOf.mp haws with ⟨x, hx, hxid⟩
      exact hPF x hx hxid
  · intro row hrow hid
    rcases List.mem_append.mp hrow with hF | hK
    · have hPF := (List.mem_filter.mp hF).2
      simp at hPF
      exact absurd hid hPF
    · exact hpk row (mem_keepLast hK)
  · intro row hrow hid
    apply List.mem_append_left
    apply List.mem_filter.mpr
    refine ⟨hrow, ?_⟩
    simp
    exact hid
  · intro row hrow hkeyA hid hmem
    rcases List.mem_append.mp hmem with hF | hK
    · have hPF := (List.mem_filter.mp hF).2
      simp at hPF
      exact hPF hid
    · have := hpk row (mem_keepLast hK)
      rw [hkeyA] at this
      exact hA this
  · exact is_period_upsert_other _ db.events db.periods
      ⟨get_period_key pt s e, pt, s, e, true⟩ A hA

/-- Witness for `C10_store_key_migration`: re-storing event id `"1"` under the
January 2024 key removes it from the rows of the earlier key `"A"` while
`"A"` stays complete. -/
theorem C10_store_key_migration_witness :
    (storeWriteList cfg8 (get_period_key "month_1" d1 d2) [evAllDay] = .ok [rowSample]
     ∧ "A" ≠ get_period_key "month_1" d1 d2
     ∧ rowA ∈ dbA.events ∧ rowA.period_key = "A" ∧ rowA.id ∈ idsOf [rowSample])
  ∧ rowA ∉ (store_period_in_database cfg8 dbA "month_1" d1 d2 [evAllDay] none).2.events
  ∧ is_period_in_database (store_period_in_database cfg8 dbA "month_1" d1 d2 [evAllDay] none).2 "A"
      = is_period_in_database dbA "A" := by
  have hdur : calculate_event_duration cfg8 evAllDay = (8 : Rat) := by
    show ((1 : Int) : Rat) * (8 : Rat) = 8
    norm_num
  have hcat : store_category "@ENG Standup" = "ENG" := by decide
  have hrow : rowOfEvent cfg8 (get_period_key "month_1" d1 d2) evAllDay
      = .ok (some rowSample) := by
    simp only [evAllDay] at hdur
    unfold rowOfEvent
    simp [evAllDay, rowSample, hdur, hcat, keyJan]
  have hws : storeWriteList cfg8 (get_period_key "month_1" d1 d2) [evAllDay]
      = .ok [rowSample] := by
    unfold storeWriteList
    rw [hrow]
    rfl
  have h := C10_store_key_migration cfg8 dbA "month_1" d1 d2 [evAllDay] [rowSample] "A"
    hws (by decide)
  exact ⟨⟨hws, by decide, by decide, by decide, by decide⟩,
    h.2.2.2.1 rowA (by decide) (by decide) (by decide), h.2.2.2.2⟩

/-- C7: an event that populates neither time-span representation is not
skipped by `generate_report` — it raises `KeyError('start')` at the unguarded
`event['start']` subscript, aborting the whole aggregation, including any
remaining events; the claim that aggregation never fails fatally on such an
event is contradicted by the code. -/
theorem C7_invalid_event_fatal :
    processEvents cfg8 [evNoStart] = .error (.keyError "start")
  ∧ processEvents cfg8 [evTimed, evNoStart] = .error (.keyError "start") := by
  exact ⟨rfl, rfl⟩

end GCal
